import Mathlib

/-!
# Expense-tracker CRUD core: a shallow embedding

This file embeds the persistence/CRUD layer of the expense tracker
(`src/main_3.py`) in Lean 4 and proves properties of it.

The backing store (a single SQLite table `expenses`) is modelled as a
list of rows together with the `AUTOINCREMENT` counter.  Each tool
function (`add_expense`, `list_expenses`, `summarize`, `delete_expense`,
`edit_expense`) becomes a pure function on that state.  SQL `REAL`
amounts are modelled as rationals, and `date BETWEEN ? AND ?` as the
lexicographic order on strings (SQLite's BINARY collation).
-/

namespace ExpenseTracker

/-- One row of the `expenses` table. -/
structure ExpenseRecord where
  id : Nat
  date : String
  amount : ℚ
  category : String
  subcategory : String
  note : String
  paid_by : String
deriving DecidableEq, Repr

/-- The store: current rows plus the `AUTOINCREMENT` counter
(`sqlite_sequence`), which never hands out an id twice. -/
structure DB where
  rows : List ExpenseRecord
  nextId : Nat
deriving DecidableEq, Repr

/-- Reachable stores: every stored id is below the autoincrement
counter, and ids are pairwise distinct. -/
def DB.WF (db : DB) : Prop :=
  (∀ r ∈ db.rows, r.id < db.nextId) ∧ (db.rows.map (·.id)).Nodup

instance (db : DB) : Decidable db.WF := by
  unfold DB.WF; infer_instance

/-- Structured results returned by the tools (the Python dicts
`{status: ok, id}`, `{status: ok, deleted_id}`, `{status: ok, updated_id}`
and `{status: error, message}`). -/
inductive ToolResult where
  | okId (id : Nat)
  | okDeleted (deleted_id : Nat)
  | okUpdated (updated_id : Nat)
  | error (message : String)
deriving DecidableEq, Repr

/-- Lexicographic comparison of character lists by Unicode scalar
value, the order SQLite's BINARY collation gives UTF-8 text. -/
def strLeAux : List Char → List Char → Bool
  | [], _ => true
  | _ :: _, [] => false
  | c :: cs, d :: ds =>
    if c.toNat < d.toNat then true
    else if d.toNat < c.toNat then false
    else strLeAux cs ds

/-- Lexicographic `≤` on strings as an executable comparison
(`strLe_iff_le` below proves it agrees with the order on `String`). -/
def strLe (s t : String) : Bool := strLeAux s.data t.data

/-- The lexicographic order on strings, as a relation (used to model
`ORDER BY category ASC`). -/
def strLeRel (a b : String) : Prop := strLe a b = true

instance : DecidableRel strLeRel :=
  fun a b => instDecidableEqBool (strLe a b) true

/-- The clause `ORDER BY id ASC` as a relation on rows. -/
def idLe (a b : ExpenseRecord) : Prop := a.id ≤ b.id

instance : DecidableRel idLe := fun a b => Nat.decLe a.id b.id

/-- The clause `date BETWEEN start_date AND end_date` (inclusive,
lexicographic). -/
def inRange (start_date end_date : String) (r : ExpenseRecord) : Bool :=
  strLe start_date r.date && strLe r.date end_date

/-- The row the `INSERT` statement of `add_expense` stores: the six
supplied values under the fresh autoincrement id. -/
def newRecord (db : DB) (date : String) (amount : ℚ) (category : String)
    (subcategory note paid_by : String) : ExpenseRecord :=
  { id := db.nextId, date := date, amount := amount, category := category,
    subcategory := subcategory, note := note, paid_by := paid_by }

/-- Tool `add_expense`: `INSERT INTO expenses(...) VALUES (?,?,?,?,?,?)`,
then return `{status: ok, id: cur.lastrowid}`. -/
def add_expense (db : DB) (date : String) (amount : ℚ) (category : String)
    (subcategory : String := "") (note : String := "") (paid_by : String := "") :
    DB × ToolResult :=
  ({ rows := db.rows ++ [newRecord db date amount category subcategory note paid_by],
     nextId := db.nextId + 1 }, .okId db.nextId)

/-- Tool `list_expenses`: `SELECT ... WHERE date BETWEEN ? AND ?
ORDER BY id ASC`. -/
def list_expenses (db : DB) (start_date end_date : String) : List ExpenseRecord :=
  (db.rows.filter (inRange start_date end_date)).insertionSort idLe

/-- Whether a row passes the optional category filter of `summarize`.
The Python code tests `if category:`, so `None` and the empty string
both mean "no filter". -/
def matchesFilter (category : Option String) (r : ExpenseRecord) : Bool :=
  match category with
  | none => true
  | some c => if c = "" then true else decide (r.category = c)

/-- The rows `summarize` aggregates over: in the date range and passing
the (truthy) category filter. -/
def summarizeRows (db : DB) (start_date end_date : String)
    (category : Option String) : List ExpenseRecord :=
  db.rows.filter (fun r => inRange start_date end_date r && matchesFilter category r)

/-- Tool `summarize`: `SELECT category, SUM(amount) AS total_amount ...
GROUP BY category ORDER BY category ASC`, with `AND category = ?`
appended only when the argument is truthy. -/
def summarize (db : DB) (start_date end_date : String)
    (category : Option String := none) : List (String × ℚ) :=
  let matching := summarizeRows db start_date end_date category
  let cats := ((matching.map (·.category)).dedup).insertionSort strLeRel
  cats.map (fun c => (c, ((matching.filter (·.category = c)).map (·.amount)).sum))

/-- Tool `delete_expense`: `DELETE FROM expenses WHERE id = ?`; report
`{status: error, message: "Expense not found"}` when `cur.rowcount == 0`,
else `{status: ok, deleted_id: expense_id}`. -/
def delete_expense (db : DB) (expense_id : Nat) : DB × ToolResult :=
  if (db.rows.filter (·.id = expense_id)).length = 0 then
    ({ rows := db.rows.filter (fun r => ¬ r.id = expense_id), nextId := db.nextId },
     .error "Expense not found")
  else
    ({ rows := db.rows.filter (fun r => ¬ r.id = expense_id), nextId := db.nextId },
     .okDeleted expense_id)

/-- The `SET` fragments accumulated by `edit_expense` for the supplied
fields, in source order. -/
def editFields (date : Option String) (amount : Option ℚ)
    (category subcategory note paid_by : Option String) : List String :=
  (if date.isSome then ["date = ?"] else []) ++
  (if amount.isSome then ["amount = ?"] else []) ++
  (if category.isSome then ["category = ?"] else []) ++
  (if subcategory.isSome then ["subcategory = ?"] else []) ++
  (if note.isSome then ["note = ?"] else []) ++
  (if paid_by.isSome then ["paid_by = ?"] else [])

/-- The SQL text `edit_expense` builds:
`f"UPDATE expenses SET \x7b', '.join(fields)\x7d WHERE id = ?"`. -/
def editQuery (date : Option String) (amount : Option ℚ)
    (category subcategory note paid_by : Option String) : String :=
  "UPDATE expenses SET " ++
    String.intercalate ", " (editFields date amount category subcategory note paid_by) ++
    " WHERE id = ?"

/-- The effect of the built `UPDATE` on one matching row: each supplied
field is overwritten, each absent field keeps its value. -/
def applyEdit (date : Option String) (amount : Option ℚ)
    (category subcategory note paid_by : Option String)
    (r : ExpenseRecord) : ExpenseRecord :=
  { r with
    date := date.getD r.date
    amount := amount.getD r.amount
    category := category.getD r.category
    subcategory := subcategory.getD r.subcategory
    note := note.getD r.note
    paid_by := paid_by.getD r.paid_by }

/-- What one call to `edit_expense` did: the resulting store, the
structured result, and the SQL statement executed against the store
(`none` when the function returned before touching the store). -/
structure EditOutcome where
  db : DB
  result : ToolResult
  executed : Option String
deriving DecidableEq, Repr

/-- The store after the built `UPDATE ... WHERE id = ?` runs: every row
whose id matches gets the supplied fields overwritten. -/
def editDb (db : DB) (expense_id : Nat)
    (date : Option String) (amount : Option ℚ)
    (category subcategory note paid_by : Option String) : DB :=
  { rows := db.rows.map (fun r =>
      if r.id = expense_id then
        applyEdit date amount category subcategory note paid_by r
      else r),
    nextId := db.nextId }

/-- Tool `edit_expense`: collect the supplied fields; with none, return
`{status: error, message: "No fields to update"}` without touching the
store; otherwise run the built `UPDATE ... WHERE id = ?` and report
"Expense not found" when `cur.rowcount == 0`. -/
def edit_expense (db : DB) (expense_id : Nat)
    (date : Option String := none) (amount : Option ℚ := none)
    (category : Option String := none) (subcategory : Option String := none)
    (note : Option String := none) (paid_by : Option String := none) :
    EditOutcome :=
  if editFields date amount category subcategory note paid_by = [] then
    { db := db, result := .error "No fields to update", executed := none }
  else if (db.rows.filter (·.id = expense_id)).length = 0 then
    { db := editDb db expense_id date amount category subcategory note paid_by,
      result := .error "Expense not found",
      executed := some (editQuery date amount category subcategory note paid_by) }
  else
    { db := editDb db expense_id date amount category subcategory note paid_by,
      result := .okUpdated expense_id,
      executed := some (editQuery date amount category subcategory note paid_by) }

/-! ## Schema initialization (`init_db`)

`init_db` runs three statements against the SQLite file: a
`CREATE TABLE IF NOT EXISTS` (whose column list already includes
`paid_by`), an `ALTER TABLE expenses ADD COLUMN paid_by` wrapped in
`try: ... except aiosqlite.OperationalError: pass`, and a `commit`.
We model the schema as a table-exists flag plus a column list, and model
driver-level failures (disk errors, locked database, ...) by an
injected optional error per statement; the `ALTER` additionally raises
the "duplicate column" `OperationalError` deterministically whenever the
column is already present. -/

/-- Database errors, split the way the `except` clause splits them:
`duplicateColumn` and `operational` are `aiosqlite.OperationalError`s
(the latter standing for e.g. "database is locked"), `other` is any
non-`OperationalError` database error. -/
inductive DbError where
  | duplicateColumn
  | operational (msg : String)
  | other (msg : String)
deriving DecidableEq, Repr

/-- Whether the error is an `aiosqlite.OperationalError` (the class the
`except` clause catches). -/
def DbError.isOperationalError : DbError → Bool
  | .duplicateColumn => true
  | .operational _ => true
  | .other _ => false

/-- The schema state of the backing store. -/
structure SchemaState where
  tableExists : Bool
  columns : List String
deriving DecidableEq, Repr

/-- The column list of the `CREATE TABLE IF NOT EXISTS expenses(...)`
statement; it already contains `paid_by`. -/
def baseColumns : List String :=
  ["id", "date", "amount", "category", "subcategory", "note", "paid_by"]

/-- Driver-level errors injected into each of the three statements of
`init_db` (`none` = the statement encounters no environmental failure). -/
structure InitFaults where
  createFault : Option DbError
  alterFault : Option DbError
  commitFault : Option DbError
deriving DecidableEq, Repr

/-- A fault-free run. -/
def noFaults : InitFaults := ⟨none, none, none⟩

/-- The statement `CREATE TABLE IF NOT EXISTS expenses(...)`. -/
def createTableIfNotExists (st : SchemaState) (fault : Option DbError) :
    Except DbError SchemaState :=
  match fault with
  | some e => .error e
  | none => if st.tableExists then .ok st else .ok ⟨true, baseColumns⟩

/-- The statement `ALTER TABLE expenses ADD COLUMN paid_by`: raises
the "duplicate column" `OperationalError` when the column exists. -/
def alterAddPaidBy (st : SchemaState) (fault : Option DbError) :
    Except DbError SchemaState :=
  match fault with
  | some e => .error e
  | none =>
    if "paid_by" ∈ st.columns then .error .duplicateColumn
    else .ok ⟨st.tableExists, st.columns ++ ["paid_by"]⟩

/-- Startup `init_db`: create the table if absent, attempt the column add with
any `OperationalError` swallowed (`except aiosqlite.OperationalError:
pass`), then commit.  Any uncaught error propagates (is fatal to
startup). -/
def init_db (st : SchemaState) (f : InitFaults) : Except DbError SchemaState :=
  match createTableIfNotExists st f.createFault with
  | .error e => .error e
  | .ok st1 =>
    match
      (match alterAddPaidBy st1 f.alterFault with
       | .ok s => Except.ok s
       | .error e => if e.isOperationalError then Except.ok st1 else .error e) with
    | .error e => .error e
    | .ok st2 =>
      match f.commitFault with
      | some e => .error e
      | none => .ok st2

/-! ## Spec-side definitions used by the cross-check claims -/

/-- The records of `list_expenses` over the range, restricted to the
filtered category when one is supplied (the right-hand side of the
spec's cross-check property, transcribed from its words). -/
def listBasedRows (db : DB) (start_date end_date : String)
    (category : Option String) : List ExpenseRecord :=
  match category with
  | none => list_expenses db start_date end_date
  | some c => (list_expenses db start_date end_date).filter (·.category = c)

/-- Per-category sums of the amounts of a row list: one
`(category, total)` pair per occurring category, in ascending category
order. -/
def groupByCategory (matching : List ExpenseRecord) : List (String × ℚ) :=
  (((matching.map (·.category)).dedup).insertionSort strLeRel).map
    (fun c => (c, ((matching.filter (·.category = c)).map (·.amount)).sum))

/-- The spec's cross-check value: per-category sums of the amounts of
the records returned by `list_expenses` over the same range, restricted
to the filtered category when one is supplied. -/
def listBasedSummary (db : DB) (start_date end_date : String)
    (category : Option String) : List (String × ℚ) :=
  groupByCategory (listBasedRows db start_date end_date category)

/-- The date-range-and-filter predicate as the spec reads it: the row is
in the inclusive range and, whenever a category filter is supplied (any
string, empty or not), the row's category equals it. -/
def specFilter (category : Option String) (r : ExpenseRecord) : Bool :=
  match category with
  | none => true
  | some c => decide (r.category = c)

/-- Category filters under which the code applies the filter the way the
spec reads it: absent, or a non-empty category name. -/
def FilterOk : Option String → Prop
  | none => True
  | some c => c ≠ ""

instance : DecidablePred FilterOk := fun f => by
  cases f <;> unfold FilterOk <;> infer_instance

/-! ## Example stores used by witnesses and counterexamples -/

/-- The spec's worked example: two Food expenses in January 2024. -/
def exDb : DB :=
  ⟨[⟨1, "2024-01-05", 25/2, "Food", "", "", ""⟩,
    ⟨2, "2024-01-06", 29/4, "Food", "", "", ""⟩], 3⟩

/-- A one-row store with a Travel expense. -/
def exDb7 : DB := ⟨[⟨1, "2024-03-10", 29/4, "Travel", "", "", ""⟩], 2⟩

/-! ## The executable comparison agrees with the lexicographic order -/

theorem char_lt_iff_toNat_lt (a b : Char) : a < b ↔ a.toNat < b.toNat := Iff.rfl

theorem strLeAux_eq_true_iff (l₁ l₂ : List Char) :
    strLeAux l₁ l₂ = true ↔ ¬ l₂ < l₁ := by
  induction l₁ generalizing l₂ with
  | nil =>
    simp only [strLeAux, true_iff]
    exact List.Lex.not_nil_right _ _
  | cons a as ih =>
    cases l₂ with
    | nil =>
      simp only [strLeAux, Bool.false_eq_true, false_iff, not_not]
      exact List.Lex.nil
    | cons b bs =>
      by_cases h1 : a.toNat < b.toNat
      · have hlt : ¬ (b :: bs) < (a :: as) := by
          intro h
          cases h with
          | cons h' => omega
          | rel h' =>
            rw [char_lt_iff_toNat_lt] at h'
            omega
        simp [strLeAux, h1, hlt]
      · by_cases h2 : b.toNat < a.toNat
        · have : (b :: bs) < (a :: as) :=
            List.Lex.rel ((char_lt_iff_toNat_lt b a).2 h2)
          simp [strLeAux, h1, h2, this]
        · have hab : a = b := by
            refine Char.eq_of_val_eq (UInt32.ext ?_)
            show a.toNat = b.toNat
            omega
          subst hab
          simp only [strLeAux, if_neg h1, if_neg h2]
          rw [ih bs]
          constructor
          · intro h hlt
            cases hlt with
            | cons h' => exact h h'
            | rel h' =>
              rw [char_lt_iff_toNat_lt] at h'
              omega
          · intro h hlt
            exact h (List.Lex.cons hlt)

/-- The comparison `strLe` decides the lexicographic order on `String`. -/
theorem strLe_iff_le (s t : String) : strLe s t = true ↔ s ≤ t := by
  rw [strLe, strLeAux_eq_true_iff]
  rw [String.le_iff_toList_le]
  exact not_lt

instance : IsTotal String strLeRel :=
  ⟨fun a b => by
    unfold strLeRel
    rw [strLe_iff_le, strLe_iff_le]
    exact le_total a b⟩

instance : IsTrans String strLeRel :=
  ⟨fun a b c hab hbc => by
    unfold strLeRel at hab hbc ⊢
    rw [strLe_iff_le] at hab hbc ⊢
    exact le_trans hab hbc⟩

instance : IsAntisymm String strLeRel :=
  ⟨fun a b hab hba => by
    unfold strLeRel at hab hba
    rw [strLe_iff_le] at hab hba
    exact le_antisymm hab hba⟩

instance : IsTotal ExpenseRecord idLe := ⟨fun a b => Nat.le_total a.id b.id⟩

instance : IsTrans ExpenseRecord idLe :=
  ⟨fun _ _ _ h₁ h₂ => Nat.le_trans h₁ h₂⟩

/-! ## Helper lemmas -/

theorem mem_ite_singleton {α : Type _} {b : Prop} [Decidable b] {x f : α}
    (h : f ∈ if b then [x] else ([] : List α)) : f = x := by
  split at h
  · simpa using h
  · simp at h

theorem editFields_subset_allowList
    (date : Option String) (amount : Option ℚ)
    (category subcategory note paid_by : Option String) :
    ∀ f ∈ editFields date amount category subcategory note paid_by,
      f ∈ ["date = ?", "amount = ?", "category = ?", "subcategory = ?",
           "note = ?", "paid_by = ?"] := by
  intro f hf
  unfold editFields at hf
  simp only [List.mem_append] at hf
  rcases hf with ((((h | h) | h) | h) | h) | h <;>
    rw [mem_ite_singleton h] <;> simp

/-- The empty store a fresh database file starts from is well-formed. -/
theorem initial_DB_WF : (⟨[], 1⟩ : DB).WF := by decide

/-- Deleting preserves well-formedness, so reachable stores stay
well-formed. -/
theorem delete_expense_preserves_WF (db : DB) (expense_id : Nat) (h : db.WF) :
    (delete_expense db expense_id).1.WF := by
  have h1 : (delete_expense db expense_id).1.rows =
      db.rows.filter (fun r => ¬ r.id = expense_id) := by
    unfold delete_expense
    split <;> rfl
  have h2 : (delete_expense db expense_id).1.nextId = db.nextId := by
    unfold delete_expense
    split <;> rfl
  constructor
  · intro r hr
    rw [h1] at hr
    rw [h2]
    exact h.1 r (List.mem_filter.1 hr).1
  · rw [h1]
    exact ((List.filter_sublist db.rows).map (fun r : ExpenseRecord => r.id)).nodup h.2

/-- Editing preserves well-formedness (ids are untouched), so reachable
stores stay well-formed. -/
theorem edit_expense_preserves_WF (db : DB) (expense_id : Nat)
    (date : Option String) (amount : Option ℚ)
    (category subcategory note paid_by : Option String) (h : db.WF) :
    (edit_expense db expense_id date amount category subcategory note paid_by).db.WF := by
  have hid : ∀ r : ExpenseRecord,
      ((fun r : ExpenseRecord => if r.id = expense_id then
        applyEdit date amount category subcategory note paid_by r else r) r).id =
        r.id := by
    intro r
    by_cases hr : r.id = expense_id <;> simp [hr, applyEdit]
  have hWF : (editDb db expense_id date amount category subcategory note paid_by).WF := by
    constructor
    · intro r hr
      obtain ⟨r₀, hr₀, hmap⟩ := List.mem_map.1 hr
      show r.id < db.nextId
      rw [← hmap, hid r₀]
      exact h.1 r₀ hr₀
    · show ((editDb db expense_id date amount category subcategory note
        paid_by).rows.map (·.id)).Nodup
      unfold editDb
      rw [List.map_map]
      have : ((fun r : ExpenseRecord => r.id) ∘ (fun r : ExpenseRecord =>
          if r.id = expense_id then
            applyEdit date amount category subcategory note paid_by r else r)) =
          (fun r : ExpenseRecord => r.id) := funext (fun r => hid r)
      rw [this]
      exact h.2
  unfold edit_expense
  split
  · exact h
  · split
    · exact hWF
    · exact hWF

/-! ## Claim theorems -/

/-- C3: calling `edit_expense` with zero supplied fields returns the
structured error `No fields to update`, executes no statement against
the store, and leaves the store completely unchanged. -/
theorem edit_expense_no_fields (db : DB) (expense_id : Nat) :
    edit_expense db expense_id none none none none none none =
      ⟨db, .error "No fields to update", none⟩ := rfl

/-- C10: `summarize` with the category filter explicitly set to the
empty string behaves identically to `summarize` with no filter at all:
the Python code tests `if category:`, which is false for `""`. -/
theorem summarize_empty_filter_eq_none (db : DB) (start_date end_date : String) :
    summarize db start_date end_date (some "") =
      summarize db start_date end_date none := rfl

/-- C9: the SQL text built by `edit_expense` depends only on which
fields are present, never on their values, and every column fragment
comes from the fixed allow-list. -/
theorem editQuery_depends_only_on_shape
    (d₁ d₂ : Option String) (a₁ a₂ : Option ℚ)
    (c₁ c₂ sc₁ sc₂ n₁ n₂ pb₁ pb₂ : Option String)
    (hd : d₁.isSome = d₂.isSome) (ha : a₁.isSome = a₂.isSome)
    (hc : c₁.isSome = c₂.isSome) (hsc : sc₁.isSome = sc₂.isSome)
    (hn : n₁.isSome = n₂.isSome) (hpb : pb₁.isSome = pb₂.isSome) :
    editQuery d₁ a₁ c₁ sc₁ n₁ pb₁ = editQuery d₂ a₂ c₂ sc₂ n₂ pb₂ ∧
    ∀ f ∈ editFields d₁ a₁ c₁ sc₁ n₁ pb₁,
      f ∈ ["date = ?", "amount = ?", "category = ?", "subcategory = ?",
           "note = ?", "paid_by = ?"] := by
  constructor
  · unfold editQuery editFields
    rw [hd, ha, hc, hsc, hn, hpb]
  · exact editFields_subset_allowList d₁ a₁ c₁ sc₁ n₁ pb₁

/-- C9 witness: two calls supplying the same field set (date and amount)
with entirely different values build the identical query string. -/
theorem editQuery_depends_only_on_shape_witness :
    editQuery (some "2024-01-01") (some 5) none none none none =
      editQuery (some "x OR 1=1") (some 999) none none none none :=
  (editQuery_depends_only_on_shape (some "2024-01-01") (some "x OR 1=1")
    (some 5) (some 999) none none none none none none none none
    rfl rfl rfl rfl rfl rfl).1

/-- C4: `delete_expense` reports `ok` with the deleted id when exactly
one row matched, reports the structured error `Expense not found` (and
changes nothing) when zero rows matched, and consequently deleting a
stored id succeeds once and reports `Expense not found` the second
time. -/
theorem delete_expense_eq (db : DB) (expense_id : Nat) :
    delete_expense db expense_id =
      ({ rows := db.rows.filter (fun r => ¬ r.id = expense_id),
         nextId := db.nextId },
       if (db.rows.filter (·.id = expense_id)).length = 0 then
         ToolResult.error "Expense not found"
       else ToolResult.okDeleted expense_id) := by
  unfold delete_expense
  split <;> rfl

theorem delete_expense_spec (db : DB) (expense_id : Nat) :
    ((db.rows.filter (·.id = expense_id)).length = 1 →
      (delete_expense db expense_id).2 = .okDeleted expense_id) ∧
    ((db.rows.filter (·.id = expense_id)).length = 0 →
      (delete_expense db expense_id).2 = .error "Expense not found" ∧
      (delete_expense db expense_id).1 = db) ∧
    (expense_id ∈ db.rows.map (·.id) →
      (delete_expense db expense_id).2 = .okDeleted expense_id ∧
      (delete_expense (delete_expense db expense_id).1 expense_id).2 =
        .error "Expense not found") := by
  have hd := delete_expense_eq db expense_id
  refine ⟨?_, ?_, ?_⟩
  · intro h1
    rw [hd]
    simp only []
    rw [if_neg (by omega)]
  · intro h0
    have hall : ∀ r ∈ db.rows, ¬ (r.id = expense_id) := by
      intro r hr hid
      have : r ∈ db.rows.filter (·.id = expense_id) :=
        List.mem_filter.2 ⟨hr, by simpa using hid⟩
      rw [List.length_eq_zero] at h0
      simp [h0] at this
    constructor
    · rw [hd]
      simp only []
      rw [if_pos h0]
    · rw [hd]
      have heq : db.rows.filter (fun r => ¬ r.id = expense_id) = db.rows :=
        List.filter_eq_self.2 (by intro r hr; simpa using hall r hr)
      show ({ rows := db.rows.filter (fun r => ¬ r.id = expense_id),
              nextId := db.nextId } : DB) = db
      rw [heq]
  · intro hmem
    obtain ⟨r, hr, hid⟩ := List.mem_map.1 hmem
    have hlen : (db.rows.filter (·.id = expense_id)).length ≠ 0 := by
      intro h0
      rw [List.length_eq_zero] at h0
      have : r ∈ db.rows.filter (·.id = expense_id) :=
        List.mem_filter.2 ⟨hr, by simpa using hid⟩
      simp [h0] at this
    refine ⟨by rw [hd]; simp only []; rw [if_neg hlen], ?_⟩
    have hnone : (((delete_expense db expense_id).1).rows.filter
        (·.id = expense_id)).length = 0 := by
      rw [hd]
      simp only []
      rw [List.length_eq_zero, List.filter_eq_nil_iff]
      intro a ha
      have := (List.mem_filter.1 ha).2
      simpa using this
    rw [delete_expense_eq ((delete_expense db expense_id).1) expense_id]
    simp only []
    rw [if_pos hnone]

/-- C4 witness: in the example store, deleting id 1 succeeds and
deleting it again reports "Expense not found". -/
theorem delete_expense_spec_witness :
    (delete_expense exDb 1).2 = .okDeleted 1 ∧
    (delete_expense (delete_expense exDb 1).1 1).2 =
      .error "Expense not found" :=
  (delete_expense_spec exDb 1).2.2 (by decide)

/-- C2: when at least one field is supplied, `edit_expense` rewrites
exactly the rows whose id matches, replacing each by `applyEdit` of its
old value; `applyEdit` keeps the id and every absent field unchanged and
installs every explicitly supplied value, including falsy ones such as
`amount = 0` or `category = ""`. -/
theorem edit_expense_frame (db : DB) (expense_id : Nat)
    (date : Option String) (amount : Option ℚ)
    (category subcategory note paid_by : Option String)
    (h : editFields date amount category subcategory note paid_by ≠ []) :
    (edit_expense db expense_id date amount category subcategory note paid_by).db.rows =
      db.rows.map (fun r => if r.id = expense_id then
        applyEdit date amount category subcategory note paid_by r else r) ∧
    (edit_expense db expense_id date amount category subcategory note paid_by).db.nextId =
      db.nextId ∧
    ∀ r : ExpenseRecord,
      (applyEdit date amount category subcategory note paid_by r).id = r.id ∧
      ((date = none →
          (applyEdit date amount category subcategory note paid_by r).date = r.date) ∧
        ∀ v, date = some v →
          (applyEdit date amount category subcategory note paid_by r).date = v) ∧
      ((amount = none →
          (applyEdit date amount category subcategory note paid_by r).amount = r.amount) ∧
        ∀ v, amount = some v →
          (applyEdit date amount category subcategory note paid_by r).amount = v) ∧
      ((category = none →
          (applyEdit date amount category subcategory note paid_by r).category = r.category) ∧
        ∀ v, category = some v →
          (applyEdit date amount category subcategory note paid_by r).category = v) ∧
      ((subcategory = none →
          (applyEdit date amount category subcategory note paid_by r).subcategory =
            r.subcategory) ∧
        ∀ v, subcategory = some v →
          (applyEdit date amount category subcategory note paid_by r).subcategory = v) ∧
      ((note = none →
          (applyEdit date amount category subcategory note paid_by r).note = r.note) ∧
        ∀ v, note = some v →
          (applyEdit date amount category subcategory note paid_by r).note = v) ∧
      ((paid_by = none →
          (applyEdit date amount category subcategory note paid_by r).paid_by =
            r.paid_by) ∧
        ∀ v, paid_by = some v →
          (applyEdit date amount category subcategory note paid_by r).paid_by = v) := by
  have hdb : (edit_expense db expense_id date amount category subcategory note
      paid_by).db = editDb db expense_id date amount category subcategory note paid_by := by
    unfold edit_expense
    rw [if_neg h]
    split <;> rfl
  refine ⟨by rw [hdb]; rfl, by rw [hdb]; rfl, ?_⟩
  intro r
  refine ⟨rfl, ⟨?_, ?_⟩, ⟨?_, ?_⟩, ⟨?_, ?_⟩, ⟨?_, ?_⟩, ⟨?_, ?_⟩, ⟨?_, ?_⟩⟩ <;>
    first
      | (rintro rfl; simp [applyEdit])
      | (rintro v rfl; simp [applyEdit])

/-- C2 witness: supplying `amount = 0` and `category = ""` explicitly
applies both falsy values to the matching row of the example store. -/
theorem edit_expense_frame_witness :
    (edit_expense exDb 1 none (some 0) (some "") none none none).db.rows =
      exDb.rows.map (fun r => if r.id = 1 then
        applyEdit none (some 0) (some "") none none none r else r) :=
  (edit_expense_frame exDb 1 none (some 0) (some "") none none none
    (by decide)).1

/-- C8: `add_expense` appends exactly one new record carrying the
supplied field values, returns `ok` with the newly assigned id, and on a
well-formed store (ids below the autoincrement counter and pairwise
distinct) the new id differs from every stored id and well-formedness is
preserved, so ids are never reused. -/
theorem add_expense_spec (db : DB) (date : String) (amount : ℚ)
    (category subcategory note paid_by : String) (h : db.WF) :
    (add_expense db date amount category subcategory note paid_by).1.rows =
      db.rows ++ [newRecord db date amount category subcategory note paid_by] ∧
    (add_expense db date amount category subcategory note paid_by).2 =
      .okId db.nextId ∧
    (∀ r ∈ db.rows, r.id ≠ db.nextId) ∧
    (add_expense db date amount category subcategory note paid_by).1.WF := by
  refine ⟨rfl, rfl, fun r hr => Nat.ne_of_lt (h.1 r hr), ?_, ?_⟩
  · intro r hr
    rcases List.mem_append.1 hr with h1 | h1
    · exact Nat.lt_trans (h.1 r h1) (Nat.lt_succ_self _)
    · have : r = newRecord db date amount category subcategory note paid_by := by
        simpa using h1
      rw [this]
      exact Nat.lt_succ_self _
  · show ((db.rows ++ [newRecord db date amount category subcategory note
      paid_by]).map (·.id)).Nodup
    rw [List.map_append]
    refine List.nodup_append.2 ⟨h.2, List.nodup_singleton _, ?_⟩
    intro a ha hb
    simp only [List.map_cons, List.map_nil, List.mem_singleton, newRecord] at hb
    obtain ⟨r, hr, hid⟩ := List.mem_map.1 ha
    have := h.1 r hr
    omega

/-- C8 witness: adding a Transport expense to the example store returns
`ok` with the fresh id 3. -/
theorem add_expense_spec_witness :
    (add_expense exDb "2024-01-07" 3 "Transport" "" "" "").2 =
      .okId exDb.nextId :=
  (add_expense_spec exDb "2024-01-07" 3 "Transport" "" "" "" (by decide)).2.1

/-- C6: `list_expenses` returns exactly the stored records whose date
lies lexicographically between the bounds (inclusive), ordered by
ascending id, and the empty sequence (not an error) when none match. -/
theorem list_expenses_spec (db : DB) (start_date end_date : String) :
    (∀ r : ExpenseRecord, r ∈ list_expenses db start_date end_date ↔
      r ∈ db.rows ∧ start_date ≤ r.date ∧ r.date ≤ end_date) ∧
    List.Sorted idLe (list_expenses db start_date end_date) ∧
    ((∀ r ∈ db.rows, ¬ (start_date ≤ r.date ∧ r.date ≤ end_date)) →
      list_expenses db start_date end_date = []) := by
  refine ⟨?_, List.sorted_insertionSort idLe _, ?_⟩
  · intro r
    unfold list_expenses
    rw [List.mem_insertionSort, List.mem_filter]
    unfold inRange
    rw [Bool.and_eq_true, strLe_iff_le, strLe_iff_le]
  · intro h
    unfold list_expenses
    have hnil : db.rows.filter (inRange start_date end_date) = [] := by
      rw [List.filter_eq_nil_iff]
      intro a ha
      simp only [inRange, Bool.and_eq_true, strLe_iff_le]
      exact h a ha
    rw [hnil]
    rfl

/-- C6 witness: the spec's example — listing over an empty February
range returns `[]`, not an error. -/
theorem list_expenses_spec_witness :
    list_expenses exDb "2024-02-01" "2024-02-28" = [] :=
  (list_expenses_spec exDb "2024-02-01" "2024-02-28").2.2 (by
    simp only [← strLe_iff_le]
    decide)

/-- Per-category sums are invariant under permutation of the row list. -/
theorem groupByCategory_perm {l₁ l₂ : List ExpenseRecord} (hp : l₁.Perm l₂) :
    groupByCategory l₁ = groupByCategory l₂ := by
  unfold groupByCategory
  have hcats : ((l₁.map (·.category)).dedup).insertionSort strLeRel =
      ((l₂.map (·.category)).dedup).insertionSort strLeRel :=
    List.eq_of_perm_of_sorted
      (((List.perm_insertionSort strLeRel _).trans ((hp.map _).dedup)).trans
        (List.perm_insertionSort strLeRel _).symm)
      (List.sorted_insertionSort strLeRel _) (List.sorted_insertionSort strLeRel _)
  rw [hcats]
  refine List.map_congr_left ?_
  intro c _
  exact congrArg (Prod.mk c) (((hp.filter _).map _).sum_eq)

/-- Under a filter that is absent or non-empty, the truthiness test of
the code agrees with the spec's reading of the filter. -/
theorem matchesFilter_eq_specFilter {category : Option String}
    (hcat : FilterOk category) (r : ExpenseRecord) :
    matchesFilter category r = specFilter category r := by
  cases category with
  | none => rfl
  | some c =>
    have hc : c ≠ "" := hcat
    simp only [matchesFilter, specFilter]
    rw [if_neg hc]

/-- The rows `summarize` aggregates are a permutation of the rows the
spec's cross-check reads off `list_expenses`. -/
theorem summarizeRows_perm (db : DB) (start_date end_date : String)
    (category : Option String) (hcat : FilterOk category) :
    (summarizeRows db start_date end_date category).Perm
      (listBasedRows db start_date end_date category) := by
  cases category with
  | none =>
    unfold summarizeRows listBasedRows list_expenses
    simp only [matchesFilter, Bool.and_true]
    exact (List.perm_insertionSort idLe _).symm
  | some c =>
    have hc : c ≠ "" := hcat
    unfold summarizeRows listBasedRows list_expenses
    refine List.Perm.trans ?_ (((List.perm_insertionSort idLe _).symm).filter _)
    rw [List.filter_filter]
    have hpred : (fun r => inRange start_date end_date r && matchesFilter (some c) r) =
        (fun r : ExpenseRecord =>
          decide (r.category = c) && inRange start_date end_date r) := by
      funext r
      simp only [matchesFilter]
      rw [if_neg hc, Bool.and_comm]
    rw [hpred]

/-- C1 (amended): for every store, every inclusive date range, and
every category filter that is absent or a non-empty string, the result
of `summarize` equals the per-category sums of the amounts of the
records returned by `list_expenses` over the same range, restricted to
the filtered category when one is supplied.  (A supplied empty-string
filter is excluded: the code treats it as no filter, see the
counterexample and C10.) -/
theorem summarize_eq_listBasedSummary (db : DB) (start_date end_date : String)
    (category : Option String) (hcat : FilterOk category) :
    summarize db start_date end_date category =
      listBasedSummary db start_date end_date category := by
  have h1 : summarize db start_date end_date category =
      groupByCategory (summarizeRows db start_date end_date category) := rfl
  have h2 : listBasedSummary db start_date end_date category =
      groupByCategory (listBasedRows db start_date end_date category) := rfl
  rw [h1, h2]
  exact groupByCategory_perm (summarizeRows_perm db start_date end_date category hcat)

/-- C1 witness: the cross-check at the example store with the non-empty
filter Food. -/
theorem summarize_eq_listBasedSummary_witness :
    summarize exDb "2024-01-01" "2024-01-31" (some "Food") =
      listBasedSummary exDb "2024-01-01" "2024-01-31" (some "Food") :=
  summarize_eq_listBasedSummary exDb "2024-01-01" "2024-01-31" (some "Food")
    (by decide)

/-- C1 counterexample: with the category filter explicitly the empty
string, `summarize` ignores the filter (the store's Food rows are
summarized) while the spec's cross-check restricts `list_expenses` to
category `""` and sums nothing, so the claimed equality fails. -/
theorem summarize_crosscheck_cex :
    summarize exDb "2024-01-01" "2024-01-31" (some "") ≠
      listBasedSummary exDb "2024-01-01" "2024-01-31" (some "") := by decide

/-- C7 (amended): for every store, every inclusive range and a filter
that is absent or a non-empty string, `summarize` returns one
`(category, total)` pair per category having at least one record in
range and matching the filter (none otherwise), the total being the sum
of those records' amounts, in ascending category order.  (A supplied
empty-string filter is excluded: the code treats it as no filter.) -/
theorem summarize_groups (db : DB) (start_date end_date : String)
    (category : Option String) (hcat : FilterOk category) :
    (∀ c : String, c ∈ (summarize db start_date end_date category).map Prod.fst ↔
      ∃ r ∈ db.rows,
        (inRange start_date end_date r && specFilter category r) = true ∧
        r.category = c) ∧
    ((summarize db start_date end_date category).map Prod.fst).Nodup ∧
    List.Sorted (· ≤ ·) ((summarize db start_date end_date category).map Prod.fst) ∧
    ∀ p ∈ summarize db start_date end_date category,
      p.2 = (((db.rows.filter (fun r =>
          inRange start_date end_date r && specFilter category r)).filter
        (fun r => r.category = p.1)).map (·.amount)).sum := by
  have hrows : summarizeRows db start_date end_date category =
      db.rows.filter (fun r =>
        inRange start_date end_date r && specFilter category r) := by
    unfold summarizeRows
    exact List.filter_congr
      (fun r _ => by rw [matchesFilter_eq_specFilter hcat])
  have hsum : summarize db start_date end_date category =
      (((summarizeRows db start_date end_date category).map
          (·.category)).dedup.insertionSort strLeRel).map
        (fun c => (c, (((summarizeRows db start_date end_date category).filter
          (·.category = c)).map (·.amount)).sum)) := rfl
  have hfst : (summarize db start_date end_date category).map Prod.fst =
      ((summarizeRows db start_date end_date category).map
        (·.category)).dedup.insertionSort strLeRel := by
    rw [hsum, List.map_map]
    simp [Function.comp_def]
  refine ⟨?_, ?_, ?_, ?_⟩
  · intro c
    rw [hfst]
    rw [List.mem_insertionSort, List.mem_dedup, List.mem_map, hrows]
    constructor
    · rintro ⟨r, hr, hcat'⟩
      have := List.mem_filter.1 hr
      exact ⟨r, this.1, this.2, hcat'⟩
    · rintro ⟨r, hr, hpred, hcat'⟩
      exact ⟨r, List.mem_filter.2 ⟨hr, hpred⟩, hcat'⟩
  · rw [hfst]
    exact ((List.perm_insertionSort strLeRel _).nodup_iff).2 (List.nodup_dedup _)
  · rw [hfst]
    refine List.Pairwise.imp ?_ (List.sorted_insertionSort strLeRel _)
    intro a b hab
    exact (strLe_iff_le a b).1 hab
  · intro p hp
    rw [hsum] at hp
    obtain ⟨c, hc, hpc⟩ := List.mem_map.1 hp
    rw [← hpc, ← hrows]

/-- C7 witness: the grouping characterization at the example store with
the non-empty filter Food, instantiated at the category Food. -/
theorem summarize_groups_witness :
    "Food" ∈ (summarize exDb "2024-01-01" "2024-01-31" (some "Food")).map Prod.fst ↔
      ∃ r ∈ exDb.rows,
        (inRange "2024-01-01" "2024-01-31" r && specFilter (some "Food") r) = true ∧
        r.category = "Food" :=
  (summarize_groups exDb "2024-01-01" "2024-01-31" (some "Food") (by decide)).1 "Food"

/-- C7 counterexample: under the explicitly supplied empty-string
filter, `summarize` returns a pair for the category Travel although no
record matches the filter `""`, so the claimed per-category
characterization fails as stated. -/
theorem summarize_groups_cex :
    "Travel" ∈ (summarize exDb7 "2024-01-01" "2024-12-31" (some "")).map Prod.fst ∧
    ¬ ∃ r ∈ exDb7.rows,
        (inRange "2024-01-01" "2024-12-31" r && specFilter (some "") r) = true ∧
        r.category = "Travel" := by decide

/-- C5 (amended): a fault-free `init_db` run always succeeds, running
it twice in sequence does not fail and does not duplicate the `paid_by`
column; a driver error raised by the `ALTER` statement is swallowed
exactly when it is an `OperationalError` (so any `OperationalError`
there, not only the duplicate-column failure, is swallowed, and a
non-`OperationalError` is fatal); any error in the `CREATE` or the
commit is fatal to startup. -/
theorem init_db_spec (st : SchemaState) (e : DbError) :
    (∃ st' : SchemaState,
      init_db st noFaults = .ok st' ∧
      init_db st' noFaults = .ok st' ∧
      (st.columns.count "paid_by" ≤ 1 → st'.columns.count "paid_by" = 1)) ∧
    (init_db st ⟨none, some e, none⟩).isOk = e.isOperationalError ∧
    init_db st ⟨some e, none, none⟩ = .error e ∧
    init_db st ⟨none, none, some e⟩ = .error e := by
  obtain ⟨te, cols⟩ := st
  refine ⟨?_, ?_, rfl, ?_⟩
  · cases te with
    | false =>
      exact ⟨⟨true, baseColumns⟩, rfl, rfl, fun _ => by decide⟩
    | true =>
      by_cases hp : "paid_by" ∈ cols
      · refine ⟨⟨true, cols⟩, ?_, ?_, ?_⟩
        · simp [init_db, createTableIfNotExists, alterAddPaidBy, noFaults, hp,
            DbError.isOperationalError]
        · simp [init_db, createTableIfNotExists, alterAddPaidBy, noFaults, hp,
            DbError.isOperationalError]
        · intro hle
          have hle1 : cols.count "paid_by" ≤ 1 := hle
          have h1 : 0 < cols.count "paid_by" := List.count_pos_iff.2 hp
          show cols.count "paid_by" = 1
          omega
      · refine ⟨⟨true, cols ++ ["paid_by"]⟩, ?_, ?_, ?_⟩
        · simp [init_db, createTableIfNotExists, alterAddPaidBy, noFaults, hp]
        · have hp2 : "paid_by" ∈ cols ++ ["paid_by"] := by simp
          simp [init_db, createTableIfNotExists, alterAddPaidBy, noFaults, hp2,
            DbError.isOperationalError]
        · intro _
          show (cols ++ ["paid_by"]).count "paid_by" = 1
          have h0 : cols.count "paid_by" = 0 := List.count_eq_zero.2 hp
          simp [List.count_append, h0]
  · cases te <;> cases he : e.isOperationalError <;>
      simp [init_db, createTableIfNotExists, alterAddPaidBy, he, Except.isOk,
        Except.toBool]
  · cases te with
    | false => rfl
    | true =>
      by_cases hp : "paid_by" ∈ cols
      · simp [init_db, createTableIfNotExists, alterAddPaidBy, hp,
          DbError.isOperationalError]
      · simp [init_db, createTableIfNotExists, alterAddPaidBy, hp]

/-- C5 witness: a disk-failure (non-operational) error in the `CREATE`
statement is fatal to startup. -/
theorem init_db_spec_witness :
    init_db ⟨true, ["id"]⟩ ⟨some (.other "disk full"), none, none⟩ =
      .error (.other "disk full") :=
  (init_db_spec ⟨true, ["id"]⟩ (.other "disk full")).2.2.1

/-- C5 counterexample: a "database is locked" `OperationalError` raised
by the `ALTER` statement is not the duplicate-column failure, yet
`except aiosqlite.OperationalError: pass` swallows it and initialization
succeeds — so the attempt does not swallow only the duplicate-column
failure, and such a database error is not fatal to startup. -/
theorem init_db_swallows_nonduplicate_cex :
    init_db ⟨true, baseColumns⟩
        ⟨none, some (.operational "database is locked"), none⟩ =
      .ok ⟨true, baseColumns⟩ ∧
    DbError.operational "database is locked" ≠ DbError.duplicateColumn ∧
    (DbError.operational "database is locked").isOperationalError = true :=
  ⟨rfl, by decide, rfl⟩

end ExpenseTracker
